import Mathlib

/-!
Verification development for the playlist-merger pipeline in
`src/ytmusic_merge_gui.py`.

The remote music-library client is modelled as an oracle structure `YT`
whose fields give the (deterministic, per-argument) outcome of each remote
call; Python exceptions become `Except.error`.  Python dictionaries with
optional keys become structures with `Option` fields, and Python
truthiness on strings (`if not vid`, `or` fallbacks) is modelled
explicitly via emptiness checks.
-/

namespace YtMusicMerge

/-- An element of a track's `artists` list (a dict with an optional `name`). -/
structure Artist where
  name : Option String
deriving DecidableEq

/-- A remote track record (`track` dict): only the keys the program reads. -/
structure Track where
  videoId : Option String
  setVideoId : Option String
  title : Option String
  artists : Option (List Artist)
  author : Option String
  artistsText : Option String
  duration : Option String
  length : Option String
  lengthText : Option String
  lengthSeconds : Option Nat
deriving DecidableEq

/-- An entry of the user's library playlist listing (`p` dict). -/
structure Playlist where
  title : Option String
  playlistId : Option String
deriving DecidableEq

/-- A selected source playlist handed to `PreviewWorker` (`source` dict,
built by `get_selected_playlists` with both keys always present). -/
structure Source where
  title : String
  playlistId : String
deriving DecidableEq

/-- Python truthiness of an optional string: `None` and `""` are falsy. -/
def pyTruthy : Option String → Bool
  | none => false
  | some s => !s.isEmpty

/-- `track_video_id` (line 440): `track.get("videoId") or track.get("setVideoId")`. -/
def track_video_id (t : Track) : Option String :=
  if pyTruthy t.videoId then t.videoId else t.setVideoId

/-- The video id actually used for classification: `track_video_id` collapsed
by truthiness (the code only ever branches on `if not vid` / set membership). -/
def derived_vid (t : Track) : Option String :=
  match track_video_id t with
  | some s => if s.isEmpty then none else some s
  | none => none

/-- The truthy `a.get("name")` of one artist entry. -/
def artistName (a : Artist) : Option String :=
  match a.name with
  | some n => if n.isEmpty then none else some n
  | none => none

/-- `str(track.get("author", track.get("artistsText", "")))` (line 449). -/
def authorText (t : Track) : String :=
  match t.author with
  | some a => a
  | none => t.artistsText.getD ""

/-- `get_artist_text` (lines 444-449). -/
def get_artist_text (t : Track) : String :=
  match t.artists with
  | some l =>
    if l.isEmpty then authorText t
    else
      let names := l.filterMap artistName
      if names.isEmpty then "" else String.intercalate ", " names
  | none => authorText t

/-- Zero-padded rendering of `{n:02d}`. -/
def pad2 (n : Nat) : String :=
  if n < 10 then "0" ++ toString n else toString n

/-- `format_duration` (lines 432-438) on a non-`None` seconds value. -/
def format_duration (seconds : Nat) : String :=
  let s := seconds % 60
  let m := (seconds / 60) % 60
  let h := (seconds / 60) / 60
  if h ≠ 0 then toString h ++ ":" ++ pad2 m ++ ":" ++ pad2 s
  else toString m ++ ":" ++ pad2 s

/-- `get_duration_text` (lines 451-463). -/
def get_duration_text (t : Track) : String :=
  if pyTruthy t.duration then t.duration.getD ""
  else if pyTruthy t.length then t.length.getD ""
  else if pyTruthy t.lengthText then t.lengthText.getD ""
  else
    match t.lengthSeconds with
    | some n => format_duration n
    | none => "—"

/-- The oracle for the remote client: outcome of each `ytmusicapi` call the
two workers make.  `Except.error e` models a raised exception with text `e`. -/
structure YT where
  get_library_playlists : Except String (List Playlist)
  get_watch_playlist : String → Except String (List Track)
  get_liked_songs : Except String (List Track)
  create_playlist : String → String → String → Except String String
  add_playlist_items : String → List String → Bool → Except String Unit

/-- The fetch shape used for both destination tracks (lines 503-507) and each
source (lines 525-529): liked songs for the sentinel id `LM`, otherwise the
watch playlist. -/
def fetchSourceTracks (yt : YT) (pid : String) : Except String (List Track) :=
  if pid = "LM" then yt.get_liked_songs else yt.get_watch_playlist pid

/-- A `track_info` dict (lines 537-543 / 573-579); `reason` is the key added
only for skipped tracks. -/
structure TrackInfo where
  title : String
  artists : String
  duration : String
  source : String
  video_id : Option String
  reason : Option String
deriving DecidableEq

/-- The `track_info` built for track `t` of source label `src`. -/
def mkInfo (t : Track) (src : String) (r : Option String) : TrackInfo :=
  { title := t.title.getD "Unknown"
    artists := get_artist_text t
    duration := get_duration_text t
    source := src
    video_id := track_video_id t
    reason := r }

/-- The mutable preview-planning state (`to_add`, `skipped`, `seen_ids`,
`total_tracks`, lines 514-517); the `seen_ids` set is kept as a list whose
membership is what the code tests. -/
structure PlanState where
  to_add : List TrackInfo
  skipped : List TrackInfo
  seen_ids : List String
  total : Nat
deriving DecidableEq

/-- Per-track classification (lines 533-556 and identically 569-592). -/
def processTrack (d : List String) (src : String) (st : PlanState) (t : Track) : PlanState :=
  match derived_vid t with
  | none =>
    { st with total := st.total + 1
              skipped := st.skipped ++ [mkInfo t src (some "No video ID")] }
  | some v =>
    if v ∈ d then
      { st with total := st.total + 1
                skipped := st.skipped ++ [mkInfo t src (some "Already in destination")] }
    else if v ∈ st.seen_ids then
      { st with total := st.total + 1
                skipped := st.skipped ++ [mkInfo t src (some "Duplicate")] }
    else
      { st with total := st.total + 1
                to_add := st.to_add ++ [mkInfo t src none]
                seen_ids := v :: st.seen_ids }

/-- Classify a fetched track sequence in order. -/
def processTracks (d : List String) (src : String) (st : PlanState) (ts : List Track) : PlanState :=
  ts.foldl (processTrack d src) st

/-- One iteration of the source loop (lines 520-559): a failed fetch is
caught and contributes nothing. -/
def processSource (yt : YT) (d : List String) (st : PlanState) (s : Source) : PlanState :=
  match fetchSourceTracks yt s.playlistId with
  | .error _ => st
  | .ok ts => processTracks d s.title st ts

/-- Python `str.strip()`: drop whitespace from both ends. -/
def pyStrip (s : String) : String :=
  ⟨((s.data.dropWhile Char.isWhitespace).reverse.dropWhile Char.isWhitespace).reverse⟩

/-- Python `str.lower()` (ASCII case mapping). -/
def pyLower (s : String) : String :=
  ⟨s.data.map Char.toLower⟩

/-- The title normalization `.strip().lower()` applied on both sides of the
destination comparison. -/
def normTitle (s : String) : String :=
  pyLower (pyStrip s)

/-- The destination-matching loop of `PreviewWorker.run` (lines 494-497):
first playlist whose trimmed lowercased title equals the trimmed lowercased
destination title; the outer `Option` is "a match was found", the inner one
the match's raw `playlistId` value. -/
def previewFindDest (dt : String) : List Playlist → Option (Option String)
  | [] => none
  | p :: rest =>
    if normTitle (p.title.getD "") = normTitle dt then some p.playlistId
    else previewFindDest dt rest

/-- The identical destination-matching loop of `PublishWorker.run`
(lines 647-651). -/
def publishFindDest (dt : String) : List Playlist → Option (Option String)
  | [] => none
  | p :: rest =>
    if normTitle (p.title.getD "") = normTitle dt then some p.playlistId
    else publishFindDest dt rest

/-- Collapse a raw matched id by Python truthiness (`if dest_id:` /
`if not dest_id:`). -/
def truthyId (o : Option String) : Option String :=
  match o with
  | some s => if s.isEmpty then none else some s
  | none => none

/-- The effective destination id of the preview run. -/
def previewDestId (dt : String) (pls : List Playlist) : Option String :=
  truthyId ((previewFindDest dt pls).getD none)

/-- The effective destination id of the publish run. -/
def publishDestId (dt : String) (pls : List Playlist) : Option String :=
  truthyId ((publishFindDest dt pls).getD none)

/-- `dest_existing_ids` (lines 499-511): the truthy video ids of the
destination's current tracks; empty when there is no destination or its
track fetch fails. -/
def destExistingIds (yt : YT) (dest_id : Option String) : List String :=
  match dest_id with
  | none => []
  | some pid =>
    match fetchSourceTracks yt pid with
    | .error _ => []
    | .ok ts => ts.filterMap derived_vid

/-- The plan state after the source loop and the optional liked-songs pass
(lines 519-594). -/
def planStates (yt : YT) (sources : List Source) (d : List String) (include_liked : Bool) :
    PlanState :=
  let st1 := sources.foldl (processSource yt d) ⟨[], [], [], 0⟩
  if include_liked then
    match yt.get_liked_songs with
    | .error _ => st1
    | .ok ts => processTracks d "Liked Songs" st1 ts
  else st1

/-- The statistics dict (lines 597-605). -/
structure PreviewStats where
  totalProcessed : Nat
  tracksToAdd : Nat
  tracksSkipped : Nat
  alreadyInDestination : Nat
  duplicatesRemoved : Nat
  noVideoId : Nat
  destinationExists : String
deriving DecidableEq

def mkStats (st : PlanState) (dest_id : Option String) : PreviewStats :=
  { totalProcessed := st.total
    tracksToAdd := st.to_add.length
    tracksSkipped := st.skipped.length
    alreadyInDestination := st.skipped.countP (fun i => i.reason == some "Already in destination")
    duplicatesRemoved := st.skipped.countP (fun i => i.reason == some "Duplicate")
    noVideoId := st.skipped.countP (fun i => i.reason == some "No video ID")
    destinationExists := if dest_id.isSome then "Yes" else "No (will be created)" }

/-- The empty payload emitted with a preview failure (line 618). -/
def emptyStats : PreviewStats := ⟨0, 0, 0, 0, 0, 0, ""⟩

/-- The terminal `done` payload of `PreviewWorker.run`. -/
structure PreviewOutcome where
  success : Bool
  message : String
  to_add : List TrackInfo
  skipped : List TrackInfo
  stats : PreviewStats
deriving DecidableEq

/-- `PreviewWorker.run` (lines 480-618) given the remote-client oracle. -/
def previewRun (yt : YT) (sources : List Source) (dest_title : String)
    (include_liked : Bool) : PreviewOutcome :=
  match yt.get_library_playlists with
  | .error e => ⟨false, "Failed to generate preview: " ++ e, [], [], emptyStats⟩
  | .ok pls =>
    let dest_id := previewDestId dest_title pls
    let d := destExistingIds yt dest_id
    let st := planStates yt sources d include_liked
    ⟨true, "Preview generated successfully", st.to_add, st.skipped, mkStats st dest_id⟩

/-- One issued `add_playlist_items` call (line 670); `duplicates` is the
keyword argument (`False` requests remote duplicate suppression). -/
structure AddCall where
  playlistId : String
  batch : List String
  duplicates : Bool
deriving DecidableEq

/-- The observable outcome of `PublishWorker.run`: the add calls issued, the
progress percentages emitted, the create call (if any, with its title,
description, privacy arguments), and the terminal `done` payload. -/
structure PublishTrace where
  addCalls : List AddCall
  progressEvents : List Nat
  created : Option (String × String × String)
  success : Bool
  message : String
  playlistUrl : String
deriving DecidableEq

/-- Structural-fuel worker for the batch slicing `range(0, n, batch_size)`
(line 665); the fuel is always instantiated with the list length, which
bounds the number of iterations whenever the size is positive. -/
def chunksGo (size : Nat) : Nat → List α → List (List α)
  | 0, _ => []
  | _ + 1, [] => []
  | fuel + 1, a :: l => ((a :: l).take size) :: chunksGo size fuel ((a :: l).drop size)

/-- The batch partition of line 665: slices of `size` in input order, the
last one possibly shorter. -/
def chunks (size : Nat) (l : List α) : List (List α) :=
  chunksGo size l.length l

/-- The batch loop body (lines 665-675) over the precomputed batch list:
returns the issued calls (the failing one included), the progress
percentages emitted after each successful batch, and the first error. -/
def addLoop (yt : YT) (dest_id : String) (total : Nat) :
    Nat → List (List String) → List AddCall × List Nat × Option String
  | _, [] => ([], [], none)
  | added, b :: rest =>
    match yt.add_playlist_items dest_id b false with
    | .error e => ([⟨dest_id, b, false⟩], [], some e)
    | .ok _ =>
      let r := addLoop yt dest_id total (added + b.length) rest
      (⟨dest_id, b, false⟩ :: r.1, (added + b.length) * 100 / total :: r.2.1, r.2.2)

/-- `self.description = description or "..."` (line 633). -/
def descOrDefault (d : String) : String :=
  if d.isEmpty then "Auto-merged playlist from YouTube Music" else d

/-- Assemble the terminal trace from the batch-loop outcome `r`: the caught
exception produces the failure `done` payload (line 683), otherwise the
success payload with the constructed URL (lines 677-679). -/
def publishFinish (created : Option (String × String × String)) (dest_id : String) (n : Nat)
    (r : List AddCall × List Nat × Option String) : PublishTrace :=
  match r.2.2 with
  | some e => ⟨r.1, r.2.1, created, false, "Publishing failed: " ++ e, ""⟩
  | none =>
    ⟨r.1, r.2.1, created, true,
      "Successfully added " ++ toString n ++ " tracks!",
      "https://music.youtube.com/playlist?list=" ++ dest_id⟩

/-- Lines 660-679: the batch loop (skipped entirely when `video_ids` is
falsy) followed by the terminal result; `created` is threaded through for
the trace. -/
def publishWithDest (yt : YT) (video_ids : List String)
    (created : Option (String × String × String)) (dest_id : String) : PublishTrace :=
  publishFinish created dest_id video_ids.length
    (if video_ids.isEmpty then ([], [], none)
     else addLoop yt dest_id video_ids.length 0 (chunks 50 video_ids))

/-- `PublishWorker.run` (lines 635-683) given the remote-client oracle. -/
def publishRun (yt : YT) (video_ids : List String) (dest_title : String)
    (privacy : String) (description : String) : PublishTrace :=
  match yt.get_library_playlists with
  | .error e => ⟨[], [], none, false, "Publishing failed: " ++ e, ""⟩
  | .ok pls =>
    match publishDestId dest_title pls with
    | some d => publishWithDest yt video_ids none d
    | none =>
      match yt.create_playlist dest_title (descOrDefault description) privacy with
      | .error e =>
        ⟨[], [], some (dest_title, descOrDefault description, privacy), false,
          "Publishing failed: " ++ e, ""⟩
      | .ok d =>
        publishWithDest yt video_ids
          (some (dest_title, descOrDefault description, privacy)) d

/-! ### Basic characterization of the per-track classification -/

theorem processTrack_noVid (d : List String) (src : String) (st : PlanState) (t : Track)
    (h : derived_vid t = none) :
    processTrack d src st t =
      { st with total := st.total + 1
                skipped := st.skipped ++ [mkInfo t src (some "No video ID")] } := by
  simp [processTrack, h]

theorem processTrack_inDest (d : List String) (src : String) (st : PlanState) (t : Track)
    (v : String) (h : derived_vid t = some v) (hd : v ∈ d) :
    processTrack d src st t =
      { st with total := st.total + 1
                skipped := st.skipped ++ [mkInfo t src (some "Already in destination")] } := by
  simp [processTrack, h, hd]

theorem processTrack_dup (d : List String) (src : String) (st : PlanState) (t : Track)
    (v : String) (h : derived_vid t = some v) (hd : v ∉ d) (hs : v ∈ st.seen_ids) :
    processTrack d src st t =
      { st with total := st.total + 1
                skipped := st.skipped ++ [mkInfo t src (some "Duplicate")] } := by
  simp [processTrack, h, hd, hs]

theorem processTrack_accept (d : List String) (src : String) (st : PlanState) (t : Track)
    (v : String) (h : derived_vid t = some v) (hd : v ∉ d) (hs : v ∉ st.seen_ids) :
    processTrack d src st t =
      { st with total := st.total + 1
                to_add := st.to_add ++ [mkInfo t src none]
                seen_ids := v :: st.seen_ids } := by
  simp [processTrack, h, hd, hs]

/-- Generic preservation of a predicate along a left fold. -/
theorem foldl_preserve {α β : Type} {P : α → Prop} {f : α → β → α}
    (h : ∀ a b, P a → P (f a b)) : ∀ (l : List β) (a : α), P a → P (l.foldl f a) := by
  intro l
  induction l with
  | nil => intro a ha; exact ha
  | cons b l ih => intro a ha; exact ih _ (h a b ha)

/-- The count invariant: `total` always counts the two output lists. -/
def balanced (st : PlanState) : Prop :=
  st.total = st.to_add.length + st.skipped.length

theorem balanced_processTrack (d : List String) (src : String) (st : PlanState) (t : Track)
    (h : balanced st) : balanced (processTrack d src st t) := by
  unfold balanced at h ⊢
  cases hdv : derived_vid t with
  | none => rw [processTrack_noVid d src st t hdv]; simp; omega
  | some v =>
    by_cases hd : v ∈ d
    · rw [processTrack_inDest d src st t v hdv hd]; simp; omega
    · by_cases hs : v ∈ st.seen_ids
      · rw [processTrack_dup d src st t v hdv hd hs]; simp; omega
      · rw [processTrack_accept d src st t v hdv hd hs]; simp; omega

theorem balanced_processSource (yt : YT) (d : List String) (st : PlanState) (s : Source)
    (h : balanced st) : balanced (processSource yt d st s) := by
  unfold processSource
  cases fetchSourceTracks yt s.playlistId with
  | error e => exact h
  | ok ts => exact foldl_preserve (fun a b => balanced_processTrack d s.title a b) ts st h

theorem balanced_planStates (yt : YT) (sources : List Source) (d : List String)
    (il : Bool) : balanced (planStates yt sources d il) := by
  unfold planStates
  have h1 : balanced (sources.foldl (processSource yt d) ⟨[], [], [], 0⟩) :=
    foldl_preserve (fun a b => balanced_processSource yt d a b) sources _ rfl
  cases il with
  | false => exact h1
  | true =>
    simp only [if_true]
    cases yt.get_liked_songs with
    | error e => exact h1
    | ok ts => exact foldl_preserve (fun a b => balanced_processTrack d "Liked Songs" a b) ts _ h1

/-- C1: every fetched track goes to exactly one of `to_add`/`skipped`
(each classification step appends exactly one entry to exactly one of the
two lists and leaves the other unchanged), and the reported statistic
"Total tracks processed" equals `|to_add| + |skipped|` for every
preview-plan run, over any oracle, source list and liked-songs flag. -/
theorem preview_partition_total :
    (∀ (d : List String) (src : String) (st : PlanState) (t : Track),
      ((processTrack d src st t).to_add = st.to_add ++ [mkInfo t src none] ∧
        (processTrack d src st t).skipped = st.skipped) ∨
      (∃ r : String,
        (processTrack d src st t).to_add = st.to_add ∧
        (processTrack d src st t).skipped = st.skipped ++ [mkInfo t src (some r)])) ∧
    (∀ (yt : YT) (sources : List Source) (dt : String) (il : Bool),
      (previewRun yt sources dt il).stats.totalProcessed =
        (previewRun yt sources dt il).to_add.length +
          (previewRun yt sources dt il).skipped.length) := by
  constructor
  · intro d src st t
    cases hdv : derived_vid t with
    | none =>
      right
      exact ⟨"No video ID", by rw [processTrack_noVid d src st t hdv], by
        rw [processTrack_noVid d src st t hdv]⟩
    | some v =>
      by_cases hd : v ∈ d
      · right
        exact ⟨"Already in destination", by rw [processTrack_inDest d src st t v hdv hd], by
          rw [processTrack_inDest d src st t v hdv hd]⟩
      · by_cases hs : v ∈ st.seen_ids
        · right
          exact ⟨"Duplicate", by rw [processTrack_dup d src st t v hdv hd hs], by
            rw [processTrack_dup d src st t v hdv hd hs]⟩
        · left
          exact ⟨by rw [processTrack_accept d src st t v hdv hd hs], by
            rw [processTrack_accept d src st t v hdv hd hs]⟩
  · intro yt sources dt il
    unfold previewRun
    cases yt.get_library_playlists with
    | error e => simp [emptyStats]
    | ok pls =>
      simp only [mkStats]
      exact balanced_planStates yt sources _ _

/-- C2: classification precedence — no derivable video id gives reason
"No video ID"; otherwise membership in the destination set gives "Already
in destination" (regardless of the seen set, hence never "Duplicate" for a
track that is both); otherwise membership in the run's seen set gives
"Duplicate"; otherwise the track is accepted into `to_add` and its id
enters the seen set. -/
theorem classify_precedence (d : List String) (src : String) (st : PlanState) (t : Track) :
    (derived_vid t = none →
      processTrack d src st t =
        { st with total := st.total + 1
                  skipped := st.skipped ++ [mkInfo t src (some "No video ID")] }) ∧
    (∀ v, derived_vid t = some v → v ∈ d →
      processTrack d src st t =
        { st with total := st.total + 1
                  skipped := st.skipped ++ [mkInfo t src (some "Already in destination")] }) ∧
    (∀ v, derived_vid t = some v → v ∉ d → v ∈ st.seen_ids →
      processTrack d src st t =
        { st with total := st.total + 1
                  skipped := st.skipped ++ [mkInfo t src (some "Duplicate")] }) ∧
    (∀ v, derived_vid t = some v → v ∉ d → v ∉ st.seen_ids →
      processTrack d src st t =
        { st with total := st.total + 1
                  to_add := st.to_add ++ [mkInfo t src none]
                  seen_ids := v :: st.seen_ids }) :=
  ⟨fun h => processTrack_noVid d src st t h,
   fun v h hd => processTrack_inDest d src st t v h hd,
   fun v h hd hs => processTrack_dup d src st t v h hd hs,
   fun v h hd hs => processTrack_accept d src st t v h hd hs⟩

/-- A minimal track whose only populated field is `videoId`. -/
def wTrack (v : String) : Track :=
  ⟨some v, none, none, none, none, none, none, none, none, none⟩

/-- A track with no derivable video id. -/
def wTrackNone : Track :=
  ⟨none, some "", none, none, none, none, none, none, none, none⟩

/-- A small plan state whose seen set already holds `v2`. -/
def wState : PlanState := ⟨[], [], ["v2"], 0⟩

theorem classify_precedence_witness :
    processTrack ["v1"] "S" wState wTrackNone =
      { wState with total := 1
                    skipped := [mkInfo wTrackNone "S" (some "No video ID")] } ∧
    processTrack ["v2"] "S" wState (wTrack "v2") =
      { wState with total := 1
                    skipped := [mkInfo (wTrack "v2") "S" (some "Already in destination")] } ∧
    processTrack ["v1"] "S" wState (wTrack "v2") =
      { wState with total := 1
                    skipped := [mkInfo (wTrack "v2") "S" (some "Duplicate")] } ∧
    processTrack ["v1"] "S" wState (wTrack "v3") =
      { wState with total := 1
                    to_add := [mkInfo (wTrack "v3") "S" none]
                    seen_ids := ["v3", "v2"] } :=
  ⟨(classify_precedence ["v1"] "S" wState wTrackNone).1 rfl,
   (classify_precedence ["v2"] "S" wState (wTrack "v2")).2.1 "v2" rfl (by decide),
   (classify_precedence ["v1"] "S" wState (wTrack "v2")).2.2.1 "v2" rfl (by decide) (by decide),
   (classify_precedence ["v1"] "S" wState (wTrack "v3")).2.2.2 "v3" rfl (by decide) (by decide)⟩

/-! ### No two accepted tracks share a video id -/

theorem derived_vid_eq (t : Track) (v : String) (h : derived_vid t = some v) :
    track_video_id t = some v := by
  unfold derived_vid at h
  cases htv : track_video_id t with
  | none => simp [htv] at h
  | some s =>
    rw [htv] at h
    by_cases hs : s.isEmpty
    · simp [hs] at h
    · simp [hs] at h; rw [h]

/-- Invariant: accepted entries carry pairwise distinct `some`-ids, all of
which are in the seen set. -/
def vidInv (st : PlanState) : Prop :=
  (st.to_add.map TrackInfo.video_id).Nodup ∧
  ∀ i ∈ st.to_add, ∃ w, i.video_id = some w ∧ w ∈ st.seen_ids

theorem vidInv_processTrack (d : List String) (src : String) (st : PlanState) (t : Track)
    (h : vidInv st) : vidInv (processTrack d src st t) := by
  obtain ⟨h1, h2⟩ := h
  cases hdv : derived_vid t with
  | none => rw [processTrack_noVid d src st t hdv]; exact ⟨h1, h2⟩
  | some v =>
    by_cases hd : v ∈ d
    · rw [processTrack_inDest d src st t v hdv hd]; exact ⟨h1, h2⟩
    · by_cases hs : v ∈ st.seen_ids
      · rw [processTrack_dup d src st t v hdv hd hs]; exact ⟨h1, h2⟩
      · rw [processTrack_accept d src st t v hdv hd hs]
        have hvid : (mkInfo t src none).video_id = some v := by
          simp [mkInfo, derived_vid_eq t v hdv]
        constructor
        · simp only [List.map_append, List.map_cons, List.map_nil, hvid]
          apply List.Nodup.append h1 (List.nodup_singleton _)
          intro a ha hb
          rw [List.mem_singleton] at hb
          subst hb
          rw [List.mem_map] at ha
          obtain ⟨i, hi, hiv⟩ := ha
          obtain ⟨w, hw, hwseen⟩ := h2 i hi
          rw [hw] at hiv
          injection hiv with hwv
          subst hwv
          exact hs hwseen
        · intro i hi
          rw [List.mem_append] at hi
          cases hi with
          | inl hi =>
            obtain ⟨w, hw, hws⟩ := h2 i hi
            exact ⟨w, hw, List.mem_cons_of_mem _ hws⟩
          | inr hi =>
            rw [List.mem_singleton] at hi
            subst hi
            exact ⟨v, hvid, List.mem_cons_self _ _⟩

theorem vidInv_processSource (yt : YT) (d : List String) (st : PlanState) (s : Source)
    (h : vidInv st) : vidInv (processSource yt d st s) := by
  unfold processSource
  cases fetchSourceTracks yt s.playlistId with
  | error e => exact h
  | ok ts => exact foldl_preserve (fun a b => vidInv_processTrack d s.title a b) ts st h

theorem vidInv_planStates (yt : YT) (sources : List Source) (d : List String)
    (il : Bool) : vidInv (planStates yt sources d il) := by
  unfold planStates
  have h1 : vidInv (sources.foldl (processSource yt d) ⟨[], [], [], 0⟩) :=
    foldl_preserve (fun a b => vidInv_processSource yt d a b) sources _ ⟨List.nodup_nil, by simp⟩
  cases il with
  | false => exact h1
  | true =>
    simp only [if_true]
    cases yt.get_liked_songs with
    | error e => exact h1
    | ok ts => exact foldl_preserve (fun a b => vidInv_processTrack d "Liked Songs" a b) ts _ h1

/-- C4: in every plan produced by the preview operation, no two entries of
`to_add` carry the same derived video id. -/
theorem to_add_video_ids_nodup :
    ∀ (yt : YT) (sources : List Source) (dt : String) (il : Bool),
      ((previewRun yt sources dt il).to_add.map TrackInfo.video_id).Nodup := by
  intro yt sources dt il
  unfold previewRun
  cases yt.get_library_playlists with
  | error e => simp
  | ok pls => exact (vidInv_planStates yt sources _ il).1

/-! ### Order of `to_add`: appended in processing order, liked songs last -/

theorem processTrack_to_add_ext (d : List String) (src : String) (st : PlanState) (t : Track) :
    ∃ new, (processTrack d src st t).to_add = st.to_add ++ new ∧
      ∀ i ∈ new, i.source = src := by
  cases hdv : derived_vid t with
  | none => exact ⟨[], by rw [processTrack_noVid d src st t hdv]; simp, by simp⟩
  | some v =>
    by_cases hd : v ∈ d
    · exact ⟨[], by rw [processTrack_inDest d src st t v hdv hd]; simp, by simp⟩
    · by_cases hs : v ∈ st.seen_ids
      · exact ⟨[], by rw [processTrack_dup d src st t v hdv hd hs]; simp, by simp⟩
      · refine ⟨[mkInfo t src none], by rw [processTrack_accept d src st t v hdv hd hs], ?_⟩
        intro i hi
        rw [List.mem_singleton] at hi
        subst hi
        simp [mkInfo]

theorem processTracks_to_add_ext (d : List String) (src : String) :
    ∀ (ts : List Track) (st : PlanState),
      ∃ new, (processTracks d src st ts).to_add = st.to_add ++ new ∧
        ∀ i ∈ new, i.source = src := by
  intro ts
  induction ts with
  | nil => intro st; exact ⟨[], by simp [processTracks], by simp⟩
  | cons t ts ih =>
    intro st
    obtain ⟨n1, e1, hs1⟩ := processTrack_to_add_ext d src st t
    obtain ⟨n2, e2, hs2⟩ := ih (processTrack d src st t)
    refine ⟨n1 ++ n2, ?_, ?_⟩
    · show (processTracks d src (processTrack d src st t) ts).to_add = _
      rw [e2, e1, List.append_assoc]
    · intro i hi
      rw [List.mem_append] at hi
      cases hi with
      | inl hi => exact hs1 i hi
      | inr hi => exact hs2 i hi

theorem processSource_to_add_ext (yt : YT) (d : List String) (st : PlanState) (s : Source) :
    ∃ new, (processSource yt d st s).to_add = st.to_add ++ new := by
  unfold processSource
  cases fetchSourceTracks yt s.playlistId with
  | error e => exact ⟨[], by simp⟩
  | ok ts =>
    obtain ⟨new, e, _⟩ := processTracks_to_add_ext d s.title ts st
    exact ⟨new, e⟩

theorem foldSources_to_add_ext (yt : YT) (d : List String) :
    ∀ (srcs : List Source) (st : PlanState),
      ∃ new, (srcs.foldl (processSource yt d) st).to_add = st.to_add ++ new := by
  intro srcs
  induction srcs with
  | nil => intro st; exact ⟨[], by simp⟩
  | cons s srcs ih =>
    intro st
    obtain ⟨n1, e1⟩ := processSource_to_add_ext yt d st s
    obtain ⟨n2, e2⟩ := ih (processSource yt d st s)
    exact ⟨n1 ++ n2, by rw [List.foldl_cons, e2, e1, List.append_assoc]⟩

/-- C3: `to_add` is built by appending in processing order — each source
pass only appends entries labelled with that source, appending further
sources never reorders what earlier sources produced, all liked-songs
entries come strictly after all playlist-source entries, and the
liked-songs pass runs from exactly the state (same `seen_ids` /
`dest_existing_ids`) left by the playlist sources. -/
theorem to_add_order :
    (∀ (d : List String) (src : String) (st : PlanState) (ts : List Track),
      ∃ new, (processTracks d src st ts).to_add = st.to_add ++ new ∧
        ∀ i ∈ new, i.source = src) ∧
    (∀ (yt : YT) (d : List String) (st : PlanState) (srcs1 srcs2 : List Source),
      ∃ new, ((srcs1 ++ srcs2).foldl (processSource yt d) st).to_add =
        (srcs1.foldl (processSource yt d) st).to_add ++ new) ∧
    (∀ (yt : YT) (sources : List Source) (dt : String),
      ∃ likedNew,
        (previewRun yt sources dt true).to_add =
          (previewRun yt sources dt false).to_add ++ likedNew ∧
        ∀ i ∈ likedNew, i.source = "Liked Songs") ∧
    (∀ (yt : YT) (sources : List Source) (d : List String) (ts : List Track),
      yt.get_liked_songs = .ok ts →
      planStates yt sources d true =
        processTracks d "Liked Songs" (planStates yt sources d false) ts) := by
  refine ⟨fun d src st ts => processTracks_to_add_ext d src ts st, ?_, ?_, ?_⟩
  · intro yt d st srcs1 srcs2
    rw [List.foldl_append]
    exact foldSources_to_add_ext yt d srcs2 _
  · intro yt sources dt
    unfold previewRun
    cases yt.get_library_playlists with
    | error e => exact ⟨[], by simp, by simp⟩
    | ok pls =>
      simp only
      unfold planStates
      simp only [if_true]
      cases yt.get_liked_songs with
      | error e => exact ⟨[], by simp, by simp⟩
      | ok ts =>
        obtain ⟨new, e, hsrc⟩ :=
          processTracks_to_add_ext (destExistingIds yt (previewDestId dt pls)) "Liked Songs" ts
            (sources.foldl (processSource yt (destExistingIds yt (previewDestId dt pls)))
              ⟨[], [], [], 0⟩)
        exact ⟨new, e, hsrc⟩
  · intro yt sources d ts h
    unfold planStates
    simp [h]

/-- An oracle whose liked-songs fetch succeeds with one track. -/
def ytLiked : YT :=
  { get_library_playlists := .ok []
    get_watch_playlist := fun _ => .error "nf"
    get_liked_songs := .ok [wTrack "L1"]
    create_playlist := fun _ _ _ => .ok "PL"
    add_playlist_items := fun _ _ _ => .ok () }

theorem to_add_order_witness :
    planStates ytLiked [] [] true =
      processTracks [] "Liked Songs" (planStates ytLiked [] [] false) [wTrack "L1"] :=
  to_add_order.2.2.2 ytLiked [] [] [wTrack "L1"] rfl

/-! ### Preview failure semantics -/

/-- C6: a fetch failure for one source is absorbed — that source leaves the
plan state unchanged, the remaining sources contribute exactly as if the
failing source were absent — and the preview run ends in failure exactly
when enumerating the playlist library fails. -/
theorem preview_failure_semantics :
    (∀ (yt : YT) (d : List String) (st : PlanState) (s : Source) (e : String),
      fetchSourceTracks yt s.playlistId = .error e → processSource yt d st s = st) ∧
    (∀ (yt : YT) (d : List String) (st : PlanState) (pre post : List Source) (s : Source)
      (e : String),
      fetchSourceTracks yt s.playlistId = .error e →
      (pre ++ s :: post).foldl (processSource yt d) st =
        (pre ++ post).foldl (processSource yt d) st) ∧
    (∀ (yt : YT) (sources : List Source) (dt : String) (il : Bool),
      (previewRun yt sources dt il).success = false ↔
        ∃ e, yt.get_library_playlists = .error e) := by
  have habs : ∀ (yt : YT) (d : List String) (st : PlanState) (s : Source) (e : String),
      fetchSourceTracks yt s.playlistId = .error e → processSource yt d st s = st := by
    intro yt d st s e h
    unfold processSource
    rw [h]
  refine ⟨habs, ?_, ?_⟩
  · intro yt d st pre post s e h
    rw [List.foldl_append, List.foldl_append, List.foldl_cons, habs yt d _ s e h]
  · intro yt sources dt il
    unfold previewRun
    cases hlib : yt.get_library_playlists with
    | error e =>
      exact ⟨fun _ => ⟨e, rfl⟩, fun _ => rfl⟩
    | ok pls =>
      constructor
      · intro h
        exact Bool.noConfusion h
      · rintro ⟨e, h⟩
        exact Except.noConfusion h

/-- An oracle where fetching the source `BAD` fails and `GOOD` succeeds. -/
def ytSrcFail : YT :=
  { get_library_playlists := .ok []
    get_watch_playlist := fun pid =>
      if pid = "BAD" then .error "boom" else .ok [wTrack "v1"]
    get_liked_songs := .error "nope"
    create_playlist := fun _ _ _ => .ok "PL"
    add_playlist_items := fun _ _ _ => .ok () }

theorem preview_failure_semantics_witness :
    processSource ytSrcFail [] ⟨[], [], [], 0⟩ ⟨"B", "BAD"⟩ = ⟨[], [], [], 0⟩ ∧
    ([⟨"A", "GOOD"⟩, ⟨"B", "BAD"⟩] : List Source).foldl (processSource ytSrcFail [])
        ⟨[], [], [], 0⟩ =
      ([⟨"A", "GOOD"⟩] : List Source).foldl (processSource ytSrcFail []) ⟨[], [], [], 0⟩ :=
  ⟨preview_failure_semantics.1 ytSrcFail [] ⟨[], [], [], 0⟩ ⟨"B", "BAD"⟩ "boom" rfl,
   preview_failure_semantics.2.1 ytSrcFail [] ⟨[], [], [], 0⟩ [⟨"A", "GOOD"⟩] [] ⟨"B", "BAD"⟩
     "boom" rfl⟩

/-! ### Destination-tracks fetch failure is non-fatal -/

theorem noDest_processTrack (src : String) (st : PlanState) (t : Track)
    (h : ∀ i ∈ st.skipped, i.reason ≠ some "Already in destination") :
    ∀ i ∈ (processTrack [] src st t).skipped, i.reason ≠ some "Already in destination" := by
  cases hdv : derived_vid t with
  | none =>
    rw [processTrack_noVid [] src st t hdv]
    intro i hi
    rw [List.mem_append, List.mem_singleton] at hi
    cases hi with
    | inl hi => exact h i hi
    | inr hi => subst hi; simp [mkInfo]
  | some v =>
    have hd : v ∉ ([] : List String) := by simp
    by_cases hs : v ∈ st.seen_ids
    · rw [processTrack_dup [] src st t v hdv hd hs]
      intro i hi
      rw [List.mem_append, List.mem_singleton] at hi
      cases hi with
      | inl hi => exact h i hi
      | inr hi => subst hi; simp [mkInfo]
    · rw [processTrack_accept [] src st t v hdv hd hs]
      exact h

theorem noDest_planStates (yt : YT) (sources : List Source) (il : Bool) :
    ∀ i ∈ (planStates yt sources [] il).skipped, i.reason ≠ some "Already in destination" := by
  unfold planStates
  have hsrc : ∀ (st : PlanState) (s : Source),
      (∀ i ∈ st.skipped, i.reason ≠ some "Already in destination") →
      ∀ i ∈ (processSource yt [] st s).skipped, i.reason ≠ some "Already in destination" := by
    intro st s h
    unfold processSource
    cases fetchSourceTracks yt s.playlistId with
    | error e => exact h
    | ok ts => exact foldl_preserve (fun a b => noDest_processTrack s.title a b) ts st h
  have h1 := foldl_preserve hsrc sources ⟨[], [], [], 0⟩ (by simp)
  cases il with
  | false => exact h1
  | true =>
    simp only [if_true]
    cases yt.get_liked_songs with
    | error e => exact h1
    | ok ts => exact foldl_preserve (fun a b => noDest_processTrack "Liked Songs" a b) ts _ h1

/-- C7: when the destination resolves but fetching its current tracks
fails, the preview still succeeds, proceeds with an empty existing-id set,
and no fetched track is classified "Already in destination". -/
theorem dest_tracks_failure_nonfatal :
    ∀ (yt : YT) (sources : List Source) (dt : String) (il : Bool) (pls : List Playlist)
      (pid e : String),
      yt.get_library_playlists = .ok pls →
      previewDestId dt pls = some pid →
      fetchSourceTracks yt pid = .error e →
      (previewRun yt sources dt il).success = true ∧
      destExistingIds yt (previewDestId dt pls) = [] ∧
      ∀ i ∈ (previewRun yt sources dt il).skipped, i.reason ≠ some "Already in destination" := by
  intro yt sources dt il pls pid e hlib hdest hfetch
  have hd0 : destExistingIds yt (previewDestId dt pls) = [] := by
    rw [hdest]
    simp [destExistingIds, hfetch]
  refine ⟨?_, hd0, ?_⟩
  · unfold previewRun
    rw [hlib]
  · unfold previewRun
    rw [hlib]
    show ∀ i ∈ (planStates yt sources (destExistingIds yt (previewDestId dt pls)) il).skipped, _
    rw [hd0]
    exact noDest_planStates yt sources il

/-- An oracle whose destination track fetch fails but whose sources load. -/
def ytDestFail : YT :=
  { get_library_playlists := .ok [⟨some "Dest", some "PD"⟩]
    get_watch_playlist := fun pid =>
      if pid = "PD" then .error "boom" else .ok [wTrack "v1"]
    get_liked_songs := .error "nope"
    create_playlist := fun _ _ _ => .ok "PL"
    add_playlist_items := fun _ _ _ => .ok () }

theorem dest_tracks_failure_nonfatal_witness :
    (previewRun ytDestFail [⟨"X", "PX"⟩] "Dest" false).success = true ∧
    destExistingIds ytDestFail (previewDestId "Dest" [⟨some "Dest", some "PD"⟩]) = [] :=
  ⟨(dest_tracks_failure_nonfatal ytDestFail [⟨"X", "PX"⟩] "Dest" false
      [⟨some "Dest", some "PD"⟩] "PD" "boom" rfl (by decide) rfl).1,
   (dest_tracks_failure_nonfatal ytDestFail [⟨"X", "PX"⟩] "Dest" false
      [⟨some "Dest", some "PD"⟩] "PD" "boom" rfl (by decide) rfl).2.1⟩

/-! ### Destination resolution rule -/

theorem publishFinish_created (created : Option (String × String × String)) (d : String)
    (n : Nat) (r : List AddCall × List Nat × Option String) :
    (publishFinish created d n r).created = created := by
  unfold publishFinish
  cases r.2.2 with
  | none => rfl
  | some e => rfl

/-- C8: preview and publish resolve the destination by one and the same
rule — first playlist (in listing order) whose stripped lowercased title
equals the stripped lowercased destination title, later matches ignored;
with no match, preview reports "No (will be created)" and publish issues a
create-playlist call. -/
theorem dest_resolution_rule :
    (∀ (dt : String) (pls : List Playlist), previewFindDest dt pls = publishFindDest dt pls) ∧
    (∀ (dt : String) (pls : List Playlist),
      (∀ p ∈ pls, normTitle (p.title.getD "") ≠ normTitle dt) →
      previewFindDest dt pls = none) ∧
    (∀ (dt : String) (pre : List Playlist) (p : Playlist) (post : List Playlist),
      (∀ q ∈ pre, normTitle (q.title.getD "") ≠ normTitle dt) →
      normTitle (p.title.getD "") = normTitle dt →
      previewFindDest dt (pre ++ p :: post) = some p.playlistId) ∧
    (∀ (yt : YT) (sources : List Source) (dt : String) (il : Bool) (pls : List Playlist),
      yt.get_library_playlists = .ok pls →
      previewFindDest dt pls = none →
      (previewRun yt sources dt il).stats.destinationExists = "No (will be created)") ∧
    (∀ (yt : YT) (vids : List String) (dt priv desc : String) (pls : List Playlist),
      yt.get_library_playlists = .ok pls →
      publishFindDest dt pls = none →
      (publishRun yt vids dt priv desc).created =
        some (dt, descOrDefault desc, priv)) := by
  refine ⟨?_, ?_, ?_, ?_, ?_⟩
  · intro dt pls
    induction pls with
    | nil => rfl
    | cons p rest ih =>
      unfold previewFindDest publishFindDest
      by_cases h : normTitle (p.title.getD "") = normTitle dt
      · simp [h]
      · simp only [h, if_false]
        exact ih
  · intro dt pls h
    induction pls with
    | nil => rfl
    | cons p rest ih =>
      unfold previewFindDest
      rw [if_neg (h p (List.mem_cons_self p rest))]
      exact ih fun q hq => h q (List.mem_cons_of_mem p hq)
  · intro dt pre p post hpre hp
    induction pre with
    | nil =>
      show previewFindDest dt (p :: post) = some p.playlistId
      unfold previewFindDest
      rw [if_pos hp]
    | cons q pre ih =>
      show previewFindDest dt (q :: (pre ++ p :: post)) = some p.playlistId
      unfold previewFindDest
      rw [if_neg (hpre q (List.mem_cons_self q pre))]
      exact ih fun q hq => hpre q (List.mem_cons_of_mem _ hq)
  · intro yt sources dt il pls hlib hfind
    have hdid : previewDestId dt pls = none := by
      simp [previewDestId, hfind, truthyId]
    unfold previewRun
    rw [hlib]
    show (mkStats _ (previewDestId dt pls)).destinationExists = _
    rw [hdid]
    rfl
  · intro yt vids dt priv desc pls hlib hfind
    have hdid : publishDestId dt pls = none := by
      simp [publishDestId, hfind, truthyId]
    simp only [publishRun, hlib, hdid]
    cases yt.create_playlist dt (descOrDefault desc) priv with
    | error e => rfl
    | ok d => exact publishFinish_created _ _ _ _

/-- An oracle whose library has no playlist matching the destination. -/
def ytNoDest : YT :=
  { get_library_playlists := .ok [⟨some "Other", some "P0"⟩]
    get_watch_playlist := fun _ => .ok []
    get_liked_songs := .ok []
    create_playlist := fun _ _ _ => .ok "NEW"
    add_playlist_items := fun _ _ _ => .ok () }

theorem dest_resolution_rule_witness :
    previewFindDest "Dest" [⟨some "Other", some "P0"⟩] = none ∧
    previewFindDest "Dest"
      [⟨some "Other", some "P0"⟩, ⟨some " DEST ", some "PD"⟩, ⟨some "dest", some "P2"⟩] =
      some (some "PD") ∧
    (previewRun ytNoDest [] "Dest" false).stats.destinationExists = "No (will be created)" ∧
    (publishRun ytNoDest [] "Dest" "PRIVATE" "").created =
      some ("Dest", descOrDefault "", "PRIVATE") :=
  ⟨dest_resolution_rule.2.1 "Dest" [⟨some "Other", some "P0"⟩] (by decide),
   dest_resolution_rule.2.2.1 "Dest" [⟨some "Other", some "P0"⟩] ⟨some " DEST ", some "PD"⟩
     [⟨some "dest", some "P2"⟩] (by decide) (by decide),
   dest_resolution_rule.2.2.2.1 ytNoDest [] "Dest" false [⟨some "Other", some "P0"⟩] rfl
     (by decide),
   dest_resolution_rule.2.2.2.2 ytNoDest [] "Dest" "PRIVATE" "" [⟨some "Other", some "P0"⟩] rfl
     (by decide)⟩

/-! ### The batch partition -/

theorem chunksGo_eq {α : Type} (size : Nat) (hsz : 0 < size) :
    ∀ (n fuel : Nat) (l : List α), l.length ≤ n → l.length ≤ fuel →
      chunksGo size fuel l = chunksGo size l.length l := by
  intro n
  induction n with
  | zero =>
    intro fuel l h1 h2
    have hl : l = [] := List.length_eq_zero.mp (Nat.le_zero.mp h1)
    subst hl
    cases fuel with
    | zero => rfl
    | succ f => rfl
  | succ n ih =>
    intro fuel l h1 h2
    cases l with
    | nil =>
      cases fuel with
      | zero => rfl
      | succ f => rfl
    | cons a l =>
      simp only [List.length_cons] at h1 h2
      obtain ⟨f, rfl⟩ : ∃ f, fuel = f + 1 := by
        cases fuel with
        | zero => omega
        | succ f => exact ⟨f, rfl⟩
      show ((a :: l).take size) :: chunksGo size f ((a :: l).drop size) =
        ((a :: l).take size) :: chunksGo size l.length ((a :: l).drop size)
      congr 1
      rw [ih f ((a :: l).drop size) ?_ ?_, ih l.length ((a :: l).drop size) ?_ ?_]
      all_goals rw [List.length_drop]; simp only [List.length_cons]; omega

theorem chunks_cons50 {α : Type} (l : List α) (h : l ≠ []) :
    chunks 50 l = l.take 50 :: chunks 50 (l.drop 50) := by
  cases l with
  | nil => exact absurd rfl h
  | cons a l =>
    show ((a :: l).take 50) :: chunksGo 50 l.length ((a :: l).drop 50) =
      ((a :: l).take 50) :: chunksGo 50 (((a :: l).drop 50).length) ((a :: l).drop 50)
    congr 1
    exact chunksGo_eq 50 (by omega) l.length l.length ((a :: l).drop 50)
      (by rw [List.length_drop]; simp only [List.length_cons]; omega)
      (by rw [List.length_drop]; simp only [List.length_cons]; omega)

theorem chunks_flatten (l : List String) : (chunks 50 l).flatten = l := by
  suffices h : ∀ (n : Nat) (l : List String), l.length ≤ n → (chunks 50 l).flatten = l from
    h l.length l le_rfl
  intro n
  induction n with
  | zero =>
    intro l hl
    rw [List.length_eq_zero.mp (Nat.le_zero.mp hl)]
    rfl
  | succ n ih =>
    intro l hl
    by_cases hnil : l = []
    · subst hnil; rfl
    · have hpos : 0 < l.length := List.length_pos.mpr hnil
      have hdrop := ih (l.drop 50) (by rw [List.length_drop]; omega)
      rw [chunks_cons50 l hnil, List.flatten_cons, hdrop, List.take_append_drop]

theorem chunks_length_eq (l : List String) :
    (chunks 50 l).length = (l.length + 49) / 50 := by
  suffices h : ∀ (n : Nat) (l : List String), l.length ≤ n →
      (chunks 50 l).length = (l.length + 49) / 50 from h l.length l le_rfl
  intro n
  induction n with
  | zero =>
    intro l hl
    rw [List.length_eq_zero.mp (Nat.le_zero.mp hl)]
    rfl
  | succ n ih =>
    intro l hl
    by_cases hnil : l = []
    · subst hnil; rfl
    · have hpos : 0 < l.length := List.length_pos.mpr hnil
      have hdl : (l.drop 50).length = l.length - 50 := List.length_drop 50 l
      have hdrop := ih (l.drop 50) (by rw [hdl]; omega)
      rw [chunks_cons50 l hnil, List.length_cons, hdrop, hdl]
      omega

theorem chunks_mem_spec (l : List String) :
    ∀ c ∈ chunks 50 l, c ≠ [] ∧ c.length ≤ 50 := by
  suffices h : ∀ (n : Nat) (l : List String), l.length ≤ n →
      ∀ c ∈ chunks 50 l, c ≠ [] ∧ c.length ≤ 50 from h l.length l le_rfl
  intro n
  induction n with
  | zero =>
    intro l hl c hc
    rw [List.length_eq_zero.mp (Nat.le_zero.mp hl)] at hc
    cases hc
  | succ n ih =>
    intro n2 hl c hc
    by_cases hnil : n2 = []
    · subst hnil; cases hc
    · have hpos : 0 < n2.length := List.length_pos.mpr hnil
      rw [chunks_cons50 n2 hnil] at hc
      rcases List.mem_cons.mp hc with h | h
      · subst h
        constructor
        · intro htake
          simp [List.take_eq_nil_iff, hnil] at htake
        · rw [List.length_take]
          omega
      · exact ih (n2.drop 50) (by rw [List.length_drop]; omega) c h

theorem chunks_getD_length (l : List String) :
    ∀ i, i + 1 < (chunks 50 l).length → ((chunks 50 l).getD i []).length = 50 := by
  suffices h : ∀ (n : Nat) (l : List String), l.length ≤ n →
      ∀ i, i + 1 < (chunks 50 l).length → ((chunks 50 l).getD i []).length = 50 from
    h l.length l le_rfl
  intro n
  induction n with
  | zero =>
    intro l hl i hi
    rw [List.length_eq_zero.mp (Nat.le_zero.mp hl)] at hi
    simp [chunks, chunksGo] at hi
  | succ n ih =>
    intro l hl i hi
    by_cases hnil : l = []
    · subst hnil; simp [chunks, chunksGo] at hi
    · have hpos : 0 < l.length := List.length_pos.mpr hnil
      rw [chunks_cons50 l hnil] at hi ⊢
      have hlen : 50 < l.length := by
        rw [List.length_cons, chunks_length_eq, List.length_drop] at hi
        omega
      cases i with
      | zero =>
        rw [List.getD_cons_zero, List.length_take]
        omega
      | succ i =>
        rw [List.getD_cons_succ]
        apply ih (l.drop 50) (by rw [List.length_drop]; omega) i
        rw [List.length_cons] at hi
        omega

theorem chunks_take_sum (l : List String) :
    ∀ k, (((chunks 50 l).take k).map List.length).sum = min (k * 50) l.length := by
  suffices h : ∀ (n : Nat) (l : List String), l.length ≤ n →
      ∀ k, (((chunks 50 l).take k).map List.length).sum = min (k * 50) l.length from
    h l.length l le_rfl
  have h0 : chunks 50 ([] : List String) = [] := rfl
  intro n
  induction n with
  | zero =>
    intro l hl k
    rw [List.length_eq_zero.mp (Nat.le_zero.mp hl), h0]
    simp
  | succ n ih =>
    intro l hl k
    by_cases hnil : l = []
    · subst hnil; rw [h0]; simp
    · have hpos : 0 < l.length := List.length_pos.mpr hnil
      rw [chunks_cons50 l hnil]
      cases k with
      | zero => simp
      | succ k =>
        rw [List.take_succ_cons, List.map_cons, List.sum_cons, List.length_take,
          ih (l.drop 50) (by rw [List.length_drop]; omega) k, List.length_drop]
        omega

/-! ### The batch loop -/

/-- The progress percentages line 672 emits over a batch list when every
call succeeds, starting from `added` items already written. -/
def progressList (total : Nat) : Nat → List (List String) → List Nat
  | _, [] => []
  | added, b :: rest =>
    (added + b.length) * 100 / total :: progressList total (added + b.length) rest

theorem progressList_length (total : Nat) :
    ∀ (bs : List (List String)) (added : Nat),
      (progressList total added bs).length = bs.length := by
  intro bs
  induction bs with
  | nil => intro added; rfl
  | cons b rest ih =>
    intro added
    show (progressList total (added + b.length) rest).length + 1 = rest.length + 1
    rw [ih (added + b.length)]

theorem progressList_getD (total : Nat) :
    ∀ (bs : List (List String)) (added i : Nat), i < bs.length →
      (progressList total added bs).getD i 0 =
        (added + (((bs.take (i + 1)).map List.length).sum)) * 100 / total := by
  intro bs
  induction bs with
  | nil => intro added i hi; simp at hi
  | cons b rest ih =>
    intro added i hi
    cases i with
    | zero =>
      show ((added + b.length) * 100 / total ::
        progressList total (added + b.length) rest).getD 0 0 = _
      rw [List.getD_cons_zero, List.take_succ_cons, List.map_cons, List.sum_cons]
      simp
    | succ i =>
      show ((added + b.length) * 100 / total ::
        progressList total (added + b.length) rest).getD (i + 1) 0 = _
      rw [List.getD_cons_succ,
        ih (added + b.length) i (by simp only [List.length_cons] at hi; omega),
        List.take_succ_cons, List.map_cons, List.sum_cons]
      congr 1
      omega

theorem addLoop_cons (yt : YT) (d : String) (total added : Nat) (b : List String)
    (rest : List (List String)) :
    addLoop yt d total added (b :: rest) =
      (match yt.add_playlist_items d b false with
        | .error e => ([⟨d, b, false⟩], [], some e)
        | .ok _ =>
          ((⟨d, b, false⟩ : AddCall) :: (addLoop yt d total (added + b.length) rest).1,
            (added + b.length) * 100 / total ::
              (addLoop yt d total (added + b.length) rest).2.1,
            (addLoop yt d total (added + b.length) rest).2.2)) := rfl

theorem addLoop_cons_error (yt : YT) (d : String) (total added : Nat) (b : List String)
    (rest : List (List String)) (e : String)
    (hb : yt.add_playlist_items d b false = .error e) :
    addLoop yt d total added (b :: rest) = ([⟨d, b, false⟩], [], some e) := by
  rw [addLoop_cons, hb]

theorem addLoop_cons_ok (yt : YT) (d : String) (total added : Nat) (b : List String)
    (rest : List (List String)) (u : Unit)
    (hb : yt.add_playlist_items d b false = .ok u) :
    addLoop yt d total added (b :: rest) =
      ((⟨d, b, false⟩ : AddCall) :: (addLoop yt d total (added + b.length) rest).1,
        (added + b.length) * 100 / total ::
          (addLoop yt d total (added + b.length) rest).2.1,
        (addLoop yt d total (added + b.length) rest).2.2) := by
  rw [addLoop_cons, hb]

theorem addLoop_ok_spec (yt : YT) (d : String) (total : Nat) :
    ∀ (bs : List (List String)) (added : Nat),
      (∀ b ∈ bs, yt.add_playlist_items d b false = .ok ()) →
      addLoop yt d total added bs =
        (bs.map (fun b => (⟨d, b, false⟩ : AddCall)), progressList total added bs, none) := by
  intro bs
  induction bs with
  | nil => intro added h; rfl
  | cons b rest ih =>
    intro added h
    rw [addLoop_cons_ok yt d total added b rest () (h b (List.mem_cons_self b rest)),
      ih (added + b.length) fun x hx => h x (List.mem_cons_of_mem b hx)]
    rfl

theorem addLoop_none_spec (yt : YT) (d : String) (total : Nat) :
    ∀ (bs : List (List String)) (added : Nat),
      (addLoop yt d total added bs).2.2 = none →
      addLoop yt d total added bs =
        (bs.map (fun b => (⟨d, b, false⟩ : AddCall)), progressList total added bs, none) := by
  intro bs
  induction bs with
  | nil => intro added h; rfl
  | cons b rest ih =>
    intro added h
    cases hb : yt.add_playlist_items d b false with
    | error e =>
      rw [addLoop_cons_error yt d total added b rest e hb] at h
      simp at h
    | ok u =>
      rw [addLoop_cons_ok yt d total added b rest u hb] at h ⊢
      rw [ih (added + b.length) h]
      rfl

theorem addLoop_error_spec (yt : YT) (d : String) (total : Nat) :
    ∀ (bs : List (List String)) (added : Nat) (calls : List AddCall) (ps : List Nat)
      (e : String),
      addLoop yt d total added bs = (calls, ps, some e) →
      ∃ k, k < bs.length ∧
        calls = (bs.take (k + 1)).map (fun b => (⟨d, b, false⟩ : AddCall)) ∧
        yt.add_playlist_items d (bs.getD k []) false = .error e ∧
        (∀ j, j < k → yt.add_playlist_items d (bs.getD j []) false = .ok ()) ∧
        ps = progressList total added (bs.take k) := by
  intro bs
  induction bs with
  | nil =>
    intro added calls ps e h
    have h22 : (([], [], none) : List AddCall × List Nat × Option String).2.2 =
        ((calls, ps, some e) : List AddCall × List Nat × Option String).2.2 := by rw [← h]; rfl
    exact Option.noConfusion h22
  | cons b rest ih =>
    intro added calls ps e h
    cases hb : yt.add_playlist_items d b false with
    | error e0 =>
      rw [addLoop_cons_error yt d total added b rest e0 hb] at h
      injection h with h1 h23
      injection h23 with h2 h3
      injection h3 with h3
      refine ⟨0, by simp, ?_, ?_, ?_, ?_⟩
      · rw [← h1, List.take_succ_cons, List.take_zero]
        rfl
      · rw [List.getD_cons_zero, hb, h3]
      · intro j hj; omega
      · rw [← h2]
        rfl
    | ok u =>
      rw [addLoop_cons_ok yt d total added b rest u hb] at h
      injection h with h1 h23
      injection h23 with h2 h3
      obtain ⟨k, hk, hcalls, herr, hprev, hps⟩ :=
        ih (added + b.length) (addLoop yt d total (added + b.length) rest).1
          (addLoop yt d total (added + b.length) rest).2.1 e (by rw [← h3])
      refine ⟨k + 1, by simp only [List.length_cons]; omega, ?_, ?_, ?_, ?_⟩
      · rw [← h1, hcalls, List.take_succ_cons, List.map_cons]
      · rw [List.getD_cons_succ]
        exact herr
      · intro j hj
        cases j with
        | zero =>
          rw [List.getD_cons_zero, hb]
        | succ j =>
          rw [List.getD_cons_succ]
          exact hprev j (by omega)
      · rw [← h2, hps, List.take_succ_cons]
        rfl

/-! ### Publish run structure -/

theorem publishFinish_error (c : Option (String × String × String)) (d : String) (n : Nat)
    (r : List AddCall × List Nat × Option String) (e : String) (h : r.2.2 = some e) :
    publishFinish c d n r = ⟨r.1, r.2.1, c, false, "Publishing failed: " ++ e, ""⟩ := by
  unfold publishFinish
  rw [h]

theorem publishFinish_ok (c : Option (String × String × String)) (d : String) (n : Nat)
    (r : List AddCall × List Nat × Option String) (h : r.2.2 = none) :
    publishFinish c d n r =
      ⟨r.1, r.2.1, c, true, "Successfully added " ++ toString n ++ " tracks!",
        "https://music.youtube.com/playlist?list=" ++ d⟩ := by
  unfold publishFinish
  rw [h]

theorem publishFinish_addCalls (c : Option (String × String × String)) (d : String) (n : Nat)
    (r : List AddCall × List Nat × Option String) :
    (publishFinish c d n r).addCalls = r.1 := by
  rcases h : r.2.2 with _ | e
  · rw [publishFinish_ok c d n r h]
  · rw [publishFinish_error c d n r e h]

theorem publishFinish_progress (c : Option (String × String × String)) (d : String) (n : Nat)
    (r : List AddCall × List Nat × Option String) :
    (publishFinish c d n r).progressEvents = r.2.1 := by
  rcases h : r.2.2 with _ | e
  · rw [publishFinish_ok c d n r h]
  · rw [publishFinish_error c d n r e h]

theorem publishWithDest_ne (yt : YT) (vids : List String)
    (created : Option (String × String × String)) (d : String) (hne : vids ≠ []) :
    publishWithDest yt vids created d =
      publishFinish created d vids.length (addLoop yt d vids.length 0 (chunks 50 vids)) := by
  unfold publishWithDest
  rw [if_neg]
  simp [hne]

theorem publishWithDest_empty (yt : YT) (created : Option (String × String × String))
    (d : String) :
    publishWithDest yt [] created d = publishFinish created d 0 ([], [], none) := rfl

/-- The four control paths of `PublishWorker.run`. -/
theorem publishRun_cases (yt : YT) (vids : List String) (dt priv desc : String) :
    (∃ e, yt.get_library_playlists = .error e ∧
      publishRun yt vids dt priv desc =
        ⟨[], [], none, false, "Publishing failed: " ++ e, ""⟩) ∨
    (∃ pls d, yt.get_library_playlists = .ok pls ∧ publishDestId dt pls = some d ∧
      publishRun yt vids dt priv desc = publishWithDest yt vids none d) ∨
    (∃ pls e, yt.get_library_playlists = .ok pls ∧ publishDestId dt pls = none ∧
      yt.create_playlist dt (descOrDefault desc) priv = .error e ∧
      publishRun yt vids dt priv desc =
        ⟨[], [], some (dt, descOrDefault desc, priv), false,
          "Publishing failed: " ++ e, ""⟩) ∨
    (∃ pls d, yt.get_library_playlists = .ok pls ∧ publishDestId dt pls = none ∧
      yt.create_playlist dt (descOrDefault desc) priv = .ok d ∧
      publishRun yt vids dt priv desc =
        publishWithDest yt vids (some (dt, descOrDefault desc, priv)) d) := by
  cases hlib : yt.get_library_playlists with
  | error e => exact Or.inl ⟨e, rfl, by simp only [publishRun, hlib]⟩
  | ok pls =>
    cases hdid : publishDestId dt pls with
    | some d =>
      exact Or.inr (Or.inl ⟨pls, d, rfl, hdid, by simp only [publishRun, hlib, hdid]⟩)
    | none =>
      cases hc : yt.create_playlist dt (descOrDefault desc) priv with
      | error e =>
        exact Or.inr (Or.inr (Or.inl ⟨pls, e, rfl, hdid, rfl,
          by simp only [publishRun, hlib, hdid, hc]⟩))
      | ok d =>
        exact Or.inr (Or.inr (Or.inr ⟨pls, d, rfl, hdid, rfl,
          by simp only [publishRun, hlib, hdid, hc]⟩))

/-- C10: publishing an empty identifier list still resolves or creates the
destination, issues no add-items calls, emits no progress events, and ends
in success carrying the destination URL. -/
theorem publish_empty_ids :
    ∀ (yt : YT) (dt priv desc : String) (pls : List Playlist),
      yt.get_library_playlists = .ok pls →
      (∀ d, publishDestId dt pls = some d →
        publishRun yt [] dt priv desc =
          ⟨[], [], none, true, "Successfully added 0 tracks!",
            "https://music.youtube.com/playlist?list=" ++ d⟩) ∧
      (∀ d, publishDestId dt pls = none →
        yt.create_playlist dt (descOrDefault desc) priv = .ok d →
        publishRun yt [] dt priv desc =
          ⟨[], [], some (dt, descOrDefault desc, priv), true,
            "Successfully added 0 tracks!",
            "https://music.youtube.com/playlist?list=" ++ d⟩) := by
  intro yt dt priv desc pls hlib
  constructor
  · intro d hdid
    simp only [publishRun, hlib, hdid]
    rw [publishWithDest_empty, publishFinish_ok none d 0 ([], [], none) rfl]
    rfl
  · intro d hdid hc
    simp only [publishRun, hlib, hdid, hc]
    rw [publishWithDest_empty,
      publishFinish_ok (some (dt, descOrDefault desc, priv)) d 0 ([], [], none) rfl]
    rfl

theorem publish_empty_ids_witness :
    publishRun ytDestFail [] "Dest" "PRIVATE" "" =
      ⟨[], [], none, true, "Successfully added 0 tracks!",
        "https://music.youtube.com/playlist?list=PD"⟩ ∧
    publishRun ytNoDest [] "Dest" "PRIVATE" "" =
      ⟨[], [], some ("Dest", descOrDefault "", "PRIVATE"), true,
        "Successfully added 0 tracks!",
        "https://music.youtube.com/playlist?list=NEW"⟩ :=
  ⟨(publish_empty_ids ytDestFail "Dest" "PRIVATE" "" [⟨some "Dest", some "PD"⟩] rfl).1
      "PD" (by decide),
   (publish_empty_ids ytNoDest "Dest" "PRIVATE" "" [⟨some "Other", some "P0"⟩] rfl).2
      "NEW" (by decide) rfl⟩

/-! ### Batching and progress of a successful publish -/

theorem getLast?_eq_getD (l : List Nat) (h : l ≠ []) :
    l.getLast? = some (l.getD (l.length - 1) 0) := by
  have hpos : 0 < l.length := List.length_pos.mpr h
  rw [List.getLast?_eq_getElem? l, List.getElem?_eq_getElem (by omega),
    List.getD_eq_getElem l 0 (by omega)]

/-- C5: a successful publish of a non-empty identifier list slices it, in
input order, into `ceil(n/50)` batches of exactly 50 except a possibly
smaller final one; issues exactly one duplicate-suppressing add call per
batch; and emits, after each batch, `floor(added * 100 / n)` — a
non-decreasing progress sequence ending at 100. -/
theorem publish_batching :
    ∀ (yt : YT) (vids : List String) (dt priv desc : String),
      vids ≠ [] →
      (publishRun yt vids dt priv desc).success = true →
      (chunks 50 vids).flatten = vids ∧
      (chunks 50 vids).length = (vids.length + 49) / 50 ∧
      (∀ c ∈ chunks 50 vids, c ≠ [] ∧ c.length ≤ 50) ∧
      (∀ i, i + 1 < (chunks 50 vids).length → ((chunks 50 vids).getD i []).length = 50) ∧
      (publishRun yt vids dt priv desc).addCalls.map AddCall.batch = chunks 50 vids ∧
      (∀ c ∈ (publishRun yt vids dt priv desc).addCalls, c.duplicates = false) ∧
      (publishRun yt vids dt priv desc).progressEvents.length = (chunks 50 vids).length ∧
      (∀ i, i < (publishRun yt vids dt priv desc).progressEvents.length →
        (publishRun yt vids dt priv desc).progressEvents.getD i 0 =
          (min ((i + 1) * 50) vids.length) * 100 / vids.length) ∧
      (∀ i j, i ≤ j → j < (publishRun yt vids dt priv desc).progressEvents.length →
        (publishRun yt vids dt priv desc).progressEvents.getD i 0 ≤
          (publishRun yt vids dt priv desc).progressEvents.getD j 0) ∧
      (publishRun yt vids dt priv desc).progressEvents.getLast? = some 100 := by
  intro yt vids dt priv desc hne hsucc
  have hn : 0 < vids.length := List.length_pos.mpr hne
  obtain ⟨created, d, heq⟩ :
      ∃ created d, publishRun yt vids dt priv desc = publishWithDest yt vids created d := by
    rcases publishRun_cases yt vids dt priv desc with
      ⟨e, _, he⟩ | ⟨pls, d, _, _, he⟩ | ⟨pls, e, _, _, _, he⟩ | ⟨pls, d, _, _, _, he⟩
    · rw [he] at hsucc; exact Bool.noConfusion hsucc
    · exact ⟨none, d, he⟩
    · rw [he] at hsucc; exact Bool.noConfusion hsucc
    · exact ⟨some (dt, descOrDefault desc, priv), d, he⟩
  rw [heq, publishWithDest_ne yt vids created d hne] at hsucc
  have h22 : (addLoop yt d vids.length 0 (chunks 50 vids)).2.2 = none := by
    rcases h2 : (addLoop yt d vids.length 0 (chunks 50 vids)).2.2 with _ | e
    · rfl
    · rw [publishFinish_error created d vids.length _ e h2] at hsucc
      exact Bool.noConfusion hsucc
  have hloop := addLoop_none_spec yt d vids.length (chunks 50 vids) 0 h22
  have hcalls : (publishRun yt vids dt priv desc).addCalls =
      (chunks 50 vids).map (fun b => (⟨d, b, false⟩ : AddCall)) := by
    rw [heq, publishWithDest_ne yt vids created d hne, publishFinish_addCalls, hloop]
  have hps : (publishRun yt vids dt priv desc).progressEvents =
      progressList vids.length 0 (chunks 50 vids) := by
    rw [heq, publishWithDest_ne yt vids created d hne, publishFinish_progress, hloop]
  have hpslen : (publishRun yt vids dt priv desc).progressEvents.length =
      (chunks 50 vids).length := by
    rw [hps, progressList_length]
  have hgetD : ∀ i, i < (publishRun yt vids dt priv desc).progressEvents.length →
      (publishRun yt vids dt priv desc).progressEvents.getD i 0 =
        (min ((i + 1) * 50) vids.length) * 100 / vids.length := by
    intro i hi
    rw [hpslen] at hi
    rw [hps, progressList_getD vids.length (chunks 50 vids) 0 i hi, chunks_take_sum vids (i + 1)]
    simp
  refine ⟨chunks_flatten vids, chunks_length_eq vids, chunks_mem_spec vids,
    chunks_getD_length vids, ?_, ?_, hpslen, hgetD, ?_, ?_⟩
  · rw [hcalls, List.map_map]
    have : (AddCall.batch ∘ fun b => (⟨d, b, false⟩ : AddCall)) = id := rfl
    rw [this, List.map_id]
  · intro c hc
    rw [hcalls] at hc
    rw [List.mem_map] at hc
    obtain ⟨b, _, hb⟩ := hc
    rw [← hb]
  · intro i j hij hj
    have hi : i < (publishRun yt vids dt priv desc).progressEvents.length := by omega
    rw [hgetD i hi, hgetD j hj]
    apply Nat.div_le_div_right
    apply Nat.mul_le_mul_right
    omega
  · have hm : 0 < (publishRun yt vids dt priv desc).progressEvents.length := by
      rw [hpslen, chunks_length_eq]
      omega
    have hnonnil : (publishRun yt vids dt priv desc).progressEvents ≠ [] := by
      intro h0
      rw [h0] at hm
      simp at hm
    rw [getLast?_eq_getD _ hnonnil,
      hgetD ((publishRun yt vids dt priv desc).progressEvents.length - 1) (by omega)]
    have hlst : (publishRun yt vids dt priv desc).progressEvents.length - 1 + 1 =
        (vids.length + 49) / 50 := by
      rw [hpslen, chunks_length_eq]
      omega
    rw [hlst]
    have hmin : min ((vids.length + 49) / 50 * 50) vids.length = vids.length := by
      omega
    rw [hmin, Nat.mul_div_cancel_left 100 hn]

/-- 120 identifiers: 50 copies of `a` then 70 copies of `b`. -/
def vids120 : List String := List.replicate 50 "a" ++ List.replicate 70 "b"

theorem publish_batching_witness :
    vids120 ≠ [] ∧
    (publishRun ytLiked vids120 "Dest" "PRIVATE" "").success = true ∧
    (publishRun ytLiked vids120 "Dest" "PRIVATE" "").addCalls.map AddCall.batch =
      chunks 50 vids120 ∧
    (publishRun ytLiked vids120 "Dest" "PRIVATE" "").progressEvents.getLast? = some 100 :=
  ⟨by decide, by decide,
   (publish_batching ytLiked vids120 "Dest" "PRIVATE" "" (by decide) (by decide)).2.2.2.2.1,
   (publish_batching ytLiked vids120 "Dest" "PRIVATE" ""
      (by decide) (by decide)).2.2.2.2.2.2.2.2.2⟩

/-! ### Publish failure semantics -/

theorem addLoop_calls_take_eq (yt : YT) (d : String) (total : Nat) :
    ∀ (bs : List (List String)) (added : Nat),
      (addLoop yt d total added bs).1.map AddCall.batch =
        bs.take ((addLoop yt d total added bs).1.length) := by
  intro bs
  induction bs with
  | nil => intro added; rfl
  | cons b rest ih =>
    intro added
    cases hb : yt.add_playlist_items d b false with
    | error e =>
      rw [addLoop_cons_error yt d total added b rest e hb]
      rfl
    | ok u =>
      rw [addLoop_cons_ok yt d total added b rest u hb, List.map_cons,
        ih (added + b.length), List.length_cons, List.take_succ_cons]

theorem publishWithDest_calls_take_eq (yt : YT) (vids : List String)
    (created : Option (String × String × String)) (d : String) :
    (publishWithDest yt vids created d).addCalls.map AddCall.batch =
      (chunks 50 vids).take ((publishWithDest yt vids created d).addCalls.length) := by
  by_cases hne : vids = []
  · subst hne; rfl
  · rw [publishWithDest_ne yt vids created d hne, publishFinish_addCalls]
    exact addLoop_calls_take_eq yt d vids.length (chunks 50 vids) 0

/-- C9: any remote failure — library listing, playlist creation, or an
add-items batch — terminates the publish with a failure payload carrying
the underlying message and an empty URL; the add calls already issued stay
in the trace exactly as an initial segment of the batch slices (nothing reverted,
each batch attempted at most once, in order). -/
theorem publish_failure_semantics :
    (∀ (yt : YT) (vids : List String) (dt priv desc e : String),
      yt.get_library_playlists = .error e →
      publishRun yt vids dt priv desc =
        ⟨[], [], none, false, "Publishing failed: " ++ e, ""⟩) ∧
    (∀ (yt : YT) (vids : List String) (dt priv desc : String) (pls : List Playlist)
      (e : String),
      yt.get_library_playlists = .ok pls →
      publishDestId dt pls = none →
      yt.create_playlist dt (descOrDefault desc) priv = .error e →
      publishRun yt vids dt priv desc =
        ⟨[], [], some (dt, descOrDefault desc, priv), false,
          "Publishing failed: " ++ e, ""⟩) ∧
    (∀ (yt : YT) (vids : List String) (created : Option (String × String × String))
      (d : String) (calls : List AddCall) (ps : List Nat) (e : String),
      vids ≠ [] →
      addLoop yt d vids.length 0 (chunks 50 vids) = (calls, ps, some e) →
      publishWithDest yt vids created d =
        ⟨calls, ps, created, false, "Publishing failed: " ++ e, ""⟩) ∧
    (∀ (yt : YT) (d : String) (total : Nat) (bs : List (List String)) (added : Nat)
      (calls : List AddCall) (ps : List Nat) (e : String),
      addLoop yt d total added bs = (calls, ps, some e) →
      ∃ k, k < bs.length ∧
        calls = (bs.take (k + 1)).map (fun b => (⟨d, b, false⟩ : AddCall)) ∧
        yt.add_playlist_items d (bs.getD k []) false = .error e ∧
        (∀ j, j < k → yt.add_playlist_items d (bs.getD j []) false = .ok ()) ∧
        ps = progressList total added (bs.take k)) ∧
    (∀ (yt : YT) (vids : List String) (dt priv desc : String),
      (publishRun yt vids dt priv desc).addCalls.map AddCall.batch =
        (chunks 50 vids).take ((publishRun yt vids dt priv desc).addCalls.length)) := by
  refine ⟨?_, ?_, ?_, ?_, ?_⟩
  · intro yt vids dt priv desc e h
    simp only [publishRun, h]
  · intro yt vids dt priv desc pls e h1 h2 h3
    simp only [publishRun, h1, h2, h3]
  · intro yt vids created d calls ps e hne hloop
    rw [publishWithDest_ne yt vids created d hne, hloop,
      publishFinish_error created d vids.length (calls, ps, some e) e rfl]
  · intro yt d total bs added calls ps e h
    exact addLoop_error_spec yt d total bs added calls ps e h
  · intro yt vids dt priv desc
    rcases publishRun_cases yt vids dt priv desc with
      ⟨e, _, he⟩ | ⟨pls, d, _, _, he⟩ | ⟨pls, e, _, _, _, he⟩ | ⟨pls, d, _, _, _, he⟩
    · rw [he]; rfl
    · rw [he]; exact publishWithDest_calls_take_eq yt vids none d
    · rw [he]; rfl
    · rw [he]
      exact publishWithDest_calls_take_eq yt vids (some (dt, descOrDefault desc, priv)) d

/-- An oracle whose library listing fails. -/
def ytLibFail : YT :=
  { get_library_playlists := .error "libdown"
    get_watch_playlist := fun _ => .ok []
    get_liked_songs := .ok []
    create_playlist := fun _ _ _ => .ok "PL"
    add_playlist_items := fun _ _ _ => .ok () }

/-- An oracle whose create-playlist call fails. -/
def ytCreateFail : YT :=
  { get_library_playlists := .ok []
    get_watch_playlist := fun _ => .ok []
    get_liked_songs := .ok []
    create_playlist := fun _ _ _ => .error "createfail"
    add_playlist_items := fun _ _ _ => .ok () }

/-- An oracle whose add-items call fails on any batch containing `b` — with
`vids120` this fails on the second of three batches. -/
def ytAddFail : YT :=
  { get_library_playlists := .ok []
    get_watch_playlist := fun _ => .ok []
    get_liked_songs := .ok []
    create_playlist := fun _ _ _ => .ok "PL"
    add_playlist_items := fun _ b _ => if "b" ∈ b then .error "boom" else .ok () }

theorem publish_failure_semantics_witness :
    publishRun ytLibFail ["x"] "Dest" "PRIVATE" "" =
      ⟨[], [], none, false, "Publishing failed: libdown", ""⟩ ∧
    publishRun ytCreateFail ["x"] "Dest" "PRIVATE" "" =
      ⟨[], [], some ("Dest", descOrDefault "", "PRIVATE"), false,
        "Publishing failed: createfail", ""⟩ ∧
    publishWithDest ytAddFail vids120 none "PL" =
      ⟨[⟨"PL", List.replicate 50 "a", false⟩, ⟨"PL", List.replicate 50 "b", false⟩], [41],
        none, false, "Publishing failed: boom", ""⟩ :=
  ⟨publish_failure_semantics.1 ytLibFail ["x"] "Dest" "PRIVATE" "" "libdown" rfl,
   publish_failure_semantics.2.1 ytCreateFail ["x"] "Dest" "PRIVATE" "" [] "createfail"
     rfl (by decide) rfl,
   publish_failure_semantics.2.2.1 ytAddFail vids120 none "PL"
     [⟨"PL", List.replicate 50 "a", false⟩, ⟨"PL", List.replicate 50 "b", false⟩] [41] "boom"
     (by decide) (by decide)⟩

end YtMusicMerge
